import Mathlib

/-!
Shallow embedding of `src/pipeline/stat_filter.go` from the heka repository.

The stage consumes work items (a message pack plus optional upstream match
captures), assembles a per-message capture mapping, resolves each configured
metric template into a statsd-style emission, hands every emission to the
stat accumulator, logs rejected emissions, and recycles the pack.

Modelling choices:
- Go `map[string]string` capture maps become functions `String → Option String`
  with overwrite-on-insert.
- The external collaborators (`InterpolateString`, the accumulator's `DropStat`)
  are parameters: a pure interpolation function and a per-emission accept
  predicate.
- The observable actions of one run (submissions to the accumulator,
  "undelivered stat" log records, pack recycling) are recorded as an event
  trace.
- The single `stat` variable of `StatFilter.Run` is threaded explicitly: it is
  declared once before the consume loop in the source, so its `Modifier` field
  survives from one template resolution to the next, across messages.
-/

namespace Heka

/-- Field value type discriminator, mirroring `message.Field_STRING` and the
other wire-format value types. -/
inductive FieldValueType where
  | STRING
  | BYTES
  | INTEGER
  | DOUBLE
  | BOOL
deriving DecidableEq

/-- A message field: name, type discriminator, and the list of string values
(`field.ValueString` in the source, empty unless the field is string-typed). -/
structure Field where
  Name : String
  ValueType : FieldValueType
  ValueString : List String
deriving DecidableEq

/-- The read-only message accessor surface used by `StatFilter.Run`:
`GetLogger`, `GetHostname`, `GetType`, `GetPayload` and the ordered field
list. -/
structure Message where
  Logger : String
  Hostname : String
  Type_ : String
  Payload : String
  Fields : List Field
deriving DecidableEq

/-- A Go `map[string]string` capture map, as a lookup function. -/
abbrev Captures := String → Option String

/-- Go map assignment `captures[k] = v`: later writes overwrite earlier ones. -/
def capInsert (c : Captures) (k v : String) : Captures :=
  fun q => if q = k then some v else c q

/-- `make(map[string]string)`. -/
def emptyCaptures : Captures := fun _ => none

/-- The `if captures == nil` guard at the top of the consume loop: an absent
upstream capture map degrades to an empty one. -/
def upstreamCaptures : Option Captures → Captures
  | none => emptyCaptures
  | some c => c

/-- The four metadata assignments in `StatFilter.Run`:
`captures["Logger"] = pack.Message.GetLogger()` and so on, in source order. -/
def loadMetadata (c : Captures) (m : Message) : Captures :=
  capInsert (capInsert (capInsert (capInsert c "Logger" m.Logger)
    "Hostname" m.Hostname) "Type" m.Type_) "Payload" m.Payload

/-- One iteration of the field loop: a string-typed field with at least one
value injects its first string value under the field name; anything else
contributes nothing. -/
def loadField (c : Captures) (f : Field) : Captures :=
  if f.ValueType = FieldValueType.STRING ∧ 0 < f.ValueString.length then
    capInsert c f.Name (f.ValueString.headD "")
  else c

/-- The `for _, field := range pack.Message.Fields` loop. -/
def loadFields (c : Captures) (fs : List Field) : Captures :=
  fs.foldl loadField c

/-- Capture assembly for one work item: upstream captures (or empty), then the
metadata keys, then the field values, in the order of the source. -/
def assembleCaptures (upstream : Option Captures) (m : Message) : Captures :=
  loadFields (loadMetadata (upstreamCaptures upstream) m) m.Fields

/-- Simple struct representing a single statsd-style metric template
(source type `metric`). -/
structure metric where
  Type_ : String
  Name : String
  Value : String
deriving DecidableEq

/-- Modelled from the spec: the Metric Emission ("Stat") record handed to the
accumulator.  Its declaring file is outside this repository snapshot; the
fields `Bucket`, `Value`, `Modifier` are exactly the ones `stat_filter.go`
assigns. -/
structure Stat where
  Bucket : String
  Value : String
  Modifier : String
deriving DecidableEq

/-- Go zero value of `Stat`: `var stat Stat` starts all fields at `""`. -/
def zeroStat : Stat := { Bucket := "", Value := "", Modifier := "" }

/-- The `switch met.Type_` statement of the metrics loop: recognized kinds set
the modifier; the switch has no default case, so any other kind leaves the
previous contents of the reused `stat` variable in place. -/
def updateModifier (prev : String) (kind : String) : String :=
  match kind with
  | "Counter" => ""
  | "Timer" => "ms"
  | "Gauge" => "g"
  | _ => prev

/-- One iteration of the metrics loop body: assign `stat.Bucket` by
interpolating `met.Name`, run the switch on `met.Type_`, assign `stat.Value`
by interpolating `met.Value`.  `stat` is the value of the reused variable
before this iteration. -/
def resolveStat (interp : String → Captures → String) (met : metric)
    (captures : Captures) (stat : Stat) : Stat :=
  { Bucket := interp met.Name captures
    Value := interp met.Value captures
    Modifier := updateModifier stat.Modifier met.Type_ }

/-- Observable actions of the stage: a submission of an emission to the
accumulator (`statAccum.DropStat(stat)`), an "Undelivered stat" log record
(`fr.LogError`), and a pack recycle (`pack.Recycle()`). -/
inductive Event where
  | dropStat (s : Stat)
  | logUndelivered (s : Stat)
  | recycle
deriving DecidableEq

/-- The `for _, met := range s.metrics` loop for one message: resolve each
template against the captures, submit it, log it when the accumulator rejects
it, and thread the reused `stat` variable.  Go iterates the metric map in
unspecified order; the list is that iteration sequence.  Returns the event
trace and the final contents of `stat`. -/
def dispatchMetrics (interp : String → Captures → String) (dropStat : Stat → Bool)
    (mets : List metric) (captures : Captures) (stat : Stat) : List Event × Stat :=
  match mets with
  | [] => ([], stat)
  | met :: rest =>
    let st := resolveStat interp met captures stat
    let evs := if dropStat st then [Event.dropStat st]
      else [Event.dropStat st, Event.logUndelivered st]
    let tl := dispatchMetrics interp dropStat rest captures st
    (evs ++ tl.1, tl.2)

/-- A pipeline pack: the part of `PipelinePack` this stage reads. -/
structure PipelinePack where
  Message : Message

/-- A work item from the input channel (`plc`): a pack plus the optional
upstream match captures. -/
structure PipelineCapture where
  Pack : PipelinePack
  Captures : Option Captures

/-- The body of the consume loop for one work item: assemble captures,
dispatch every configured template, then `pack.Recycle()`. -/
def processPack (interp : String → Captures → String) (dropStat : Stat → Bool)
    (mets : List metric) (plc : PipelineCapture) (stat : Stat) : List Event × Stat :=
  let captures := assembleCaptures plc.Captures plc.Pack.Message
  let r := dispatchMetrics interp dropStat mets captures stat
  (r.1 ++ [Event.recycle], r.2)

/-- The `for plc := range inChan` consume loop over the whole input stream,
threading the single `stat` variable across messages. -/
def runLoop (interp : String → Captures → String) (dropStat : Stat → Bool)
    (mets : List metric) (items : List PipelineCapture) (stat : Stat) : List Event :=
  match items with
  | [] => []
  | plc :: rest =>
    let r := processPack interp dropStat mets plc stat
    r.1 ++ runLoop interp dropStat mets rest r.2

/-- The filter's configuration state: the template set (iteration sequence of
the Go metric map) and the configured accumulator name. -/
structure StatFilter where
  metrics : List metric
  statAccumName : String

/-- A registered pipeline input: it exposes the accumulator-accept capability
exactly when the Go type assertion `statAccumInput.(StatAccumulator)` would
succeed, in which case `statAccum` carries its `DropStat` operation. -/
structure InputRunner where
  statAccum : Option (Stat → Bool)

/-- The two startup failures of `StatFilter.Run`, each naming the offending
configured target. -/
inductive StartupError where
  | noInputNamed (name : String)
  | notAStatAccumulator (name : String)
deriving DecidableEq

/-- `StatFilter.Run`: look up the configured accumulator target among the
registered pipeline inputs, check the accumulator capability, then drive the
consume loop; a startup failure produces an error and no events. -/
def StatFilter.Run (s : StatFilter) (inputRunners : String → Option InputRunner)
    (interp : String → Captures → String) (items : List PipelineCapture) :
    Except StartupError (List Event) :=
  match inputRunners s.statAccumName with
  | none => Except.error (StartupError.noInputNamed s.statAccumName)
  | some ir =>
    match ir.statAccum with
    | none => Except.error (StartupError.notAStatAccumulator s.statAccumName)
    | some dropStat => Except.ok (runLoop interp dropStat s.metrics items zeroStat)

/-- The emissions submitted to the accumulator, in submission order. -/
def emissionsOf (evs : List Event) : List Stat :=
  evs.filterMap fun e =>
    match e with
    | Event.dropStat s => some s
    | _ => none

/-- The "Undelivered stat" log records, in order. -/
def undeliveredLogsOf (evs : List Event) : List Stat :=
  evs.filterMap fun e =>
    match e with
    | Event.logUndelivered s => some s
    | _ => none

/-- How many times a trace recycles a pack. -/
def recycleCount (evs : List Event) : Nat :=
  evs.countP fun e =>
    match e with
    | Event.recycle => true
    | _ => false

/-- The events the dispatcher produces for a given sequence of resolved
emissions: one submission each, plus a log record for each rejection. -/
def statEvents (dropStat : Stat → Bool) : List Stat → List Event
  | [] => []
  | s :: rest =>
    (if dropStat s then [Event.dropStat s]
      else [Event.dropStat s, Event.logUndelivered s]) ++ statEvents dropStat rest

/-- Last element of a list, with a default for the empty list. -/
def lastStatD : List Stat → Stat → Stat
  | [], d => d
  | s :: rest, _ => lastStatD rest s

/-- The emissions the metrics loop resolves for one message, in iteration
order, threading the reused `stat` variable. -/
def resolveSeq (interp : String → Captures → String) (mets : List metric)
    (captures : Captures) (stat : Stat) : List Stat :=
  match mets with
  | [] => []
  | met :: rest =>
    let st := resolveStat interp met captures stat
    st :: resolveSeq interp rest captures st

/-- The emissions resolved for a flattened sequence of (template, captures)
jobs, threading the reused `stat` variable across all of them. -/
def resolveJobs (interp : String → Captures → String)
    (jobs : List (metric × Captures)) (stat : Stat) : List Stat :=
  match jobs with
  | [] => []
  | j :: rest =>
    let st := resolveStat interp j.1 j.2 stat
    st :: resolveJobs interp rest st

/-- The flattened per-run job sequence: every work item contributes one job
per configured template, against that item's assembled captures. -/
def jobsOf (mets : List metric) (items : List PipelineCapture) :
    List (metric × Captures) :=
  match items with
  | [] => []
  | plc :: rest =>
    mets.map (fun met => (met, assembleCaptures plc.Captures plc.Pack.Message))
      ++ jobsOf mets rest

/-- The template kinds of a run's flattened job sequence, in resolution
order. -/
def runKinds (s : StatFilter) (items : List PipelineCapture) : List String :=
  (jobsOf s.metrics items).map fun j => j.1.Type_

/-- The modifier of each successive emission, given the modifier held by the
reused `stat` variable beforehand and the sequence of template kinds. -/
def modifierTrace (m : String) : List String → List String
  | [] => []
  | k :: rest => updateModifier m k :: modifierTrace (updateModifier m k) rest

/-- Whether a template kind is one of the three the switch recognizes. -/
def kindRecognized (k : String) : Bool :=
  k == "Counter" || k == "Timer" || k == "Gauge"

/-- The modifier a recognized kind assigns. -/
def kindModifier (k : String) : String :=
  match k with
  | "Timer" => "ms"
  | "Gauge" => "g"
  | _ => ""

/-- The last recognized kind of a kind sequence, if any. -/
def lastRecognized : List String → Option String
  | [] => none
  | k :: rest =>
    Option.or (lastRecognized rest) (if kindRecognized k then some k else none)

/-- The first string value of the last string-typed, non-empty field named
`k`, if any: the value the field loop leaves under key `k`. -/
def lastStringField (fs : List Field) (k : String) : Option String :=
  match fs with
  | [] => none
  | f :: rest =>
    Option.or (lastStringField rest k)
      (if f.ValueType = FieldValueType.STRING ∧ 0 < f.ValueString.length
          ∧ f.Name = k
        then f.ValueString.head? else none)

/-- Lookup among the four metadata keys. -/
def metadataLookup (m : Message) (k : String) : Option String :=
  if k = "Payload" then some m.Payload
  else if k = "Type" then some m.Type_
  else if k = "Hostname" then some m.Hostname
  else if k = "Logger" then some m.Logger
  else none

/-- Each template of one message paired with its resolved emission and the
accumulator's verdict on it, in iteration order. -/
def templateOutcomes (interp : String → Captures → String) (dropStat : Stat → Bool)
    (mets : List metric) (captures : Captures) (stat : Stat) :
    List (metric × Stat × Bool) :=
  match mets with
  | [] => []
  | met :: rest =>
    let st := resolveStat interp met captures stat
    (met, st, dropStat st) :: templateOutcomes interp dropStat rest captures st

/-! ### Capture-lookup characterization -/

theorem loadField_lookup (c : Captures) (f : Field) (k : String) :
    loadField c f k =
      Option.or
        (if f.ValueType = FieldValueType.STRING ∧ 0 < f.ValueString.length
            ∧ f.Name = k
          then f.ValueString.head? else none)
        (c k) := by
  unfold loadField
  by_cases hg : f.ValueType = FieldValueType.STRING ∧ 0 < f.ValueString.length
  · rw [if_pos hg]
    by_cases hk : f.Name = k
    · subst hk
      cases hvs : f.ValueString with
      | nil => rw [hvs] at hg; simp at hg
      | cons v rest => simp [capInsert, hg.1]
    · have hnk : ¬ k = f.Name := fun h => hk h.symm
      rw [if_neg (fun hcond => hk hcond.2.2)]
      simp only [capInsert]
      rw [if_neg hnk, Option.none_or]
  · rw [if_neg hg, if_neg (fun hcond => hg ⟨hcond.1, hcond.2.1⟩), Option.none_or]

theorem loadFields_lookup (fs : List Field) (c : Captures) (k : String) :
    loadFields c fs k = Option.or (lastStringField fs k) (c k) := by
  induction fs generalizing c with
  | nil => simp [loadFields, lastStringField]
  | cons f rest ih =>
    have h1 : loadFields c (f :: rest) = loadFields (loadField c f) rest := rfl
    rw [h1, ih (loadField c f), loadField_lookup, lastStringField, Option.or_assoc]

theorem loadMetadata_lookup (c : Captures) (m : Message) (k : String) :
    loadMetadata c m k = Option.or (metadataLookup m k) (c k) := by
  simp only [loadMetadata, capInsert, metadataLookup]
  split_ifs <;> simp_all

theorem assembleCaptures_lookup (u : Option Captures) (m : Message) (k : String) :
    assembleCaptures u m k =
      Option.or (lastStringField m.Fields k)
        (Option.or (metadataLookup m k) (upstreamCaptures u k)) := by
  unfold assembleCaptures
  rw [loadFields_lookup, loadMetadata_lookup]

/-! ### Dispatch-trace characterization -/

theorem dispatchMetrics_eq (interp : String → Captures → String)
    (dropStat : Stat → Bool) (mets : List metric) (c : Captures) (st : Stat) :
    dispatchMetrics interp dropStat mets c st
      = (statEvents dropStat (resolveSeq interp mets c st),
          lastStatD (resolveSeq interp mets c st) st) := by
  induction mets generalizing st with
  | nil => rfl
  | cons met rest ih =>
    simp only [dispatchMetrics, resolveSeq, statEvents, lastStatD, ih]

theorem emissionsOf_append (a b : List Event) :
    emissionsOf (a ++ b) = emissionsOf a ++ emissionsOf b :=
  List.filterMap_append a b _

theorem undeliveredLogsOf_append (a b : List Event) :
    undeliveredLogsOf (a ++ b) = undeliveredLogsOf a ++ undeliveredLogsOf b :=
  List.filterMap_append a b _

theorem recycleCount_append (a b : List Event) :
    recycleCount (a ++ b) = recycleCount a + recycleCount b :=
  List.countP_append _ a b

theorem emissionsOf_cons_drop (s : Stat) (evs : List Event) :
    emissionsOf (Event.dropStat s :: evs) = s :: emissionsOf evs := rfl

theorem emissionsOf_cons_log (s : Stat) (evs : List Event) :
    emissionsOf (Event.logUndelivered s :: evs) = emissionsOf evs := rfl

theorem emissionsOf_cons_recycle (evs : List Event) :
    emissionsOf (Event.recycle :: evs) = emissionsOf evs := rfl

theorem undeliveredLogsOf_cons_drop (s : Stat) (evs : List Event) :
    undeliveredLogsOf (Event.dropStat s :: evs) = undeliveredLogsOf evs := rfl

theorem undeliveredLogsOf_cons_log (s : Stat) (evs : List Event) :
    undeliveredLogsOf (Event.logUndelivered s :: evs) = s :: undeliveredLogsOf evs := rfl

theorem recycleCount_cons_drop (s : Stat) (evs : List Event) :
    recycleCount (Event.dropStat s :: evs) = recycleCount evs := by
  simp [recycleCount, List.countP_cons]

theorem recycleCount_cons_log (s : Stat) (evs : List Event) :
    recycleCount (Event.logUndelivered s :: evs) = recycleCount evs := by
  simp [recycleCount, List.countP_cons]

theorem recycleCount_singleton_recycle : recycleCount [Event.recycle] = 1 := rfl

theorem emissionsOf_statEvents (dropStat : Stat → Bool) (l : List Stat) :
    emissionsOf (statEvents dropStat l) = l := by
  induction l with
  | nil => rfl
  | cons s rest ih =>
    by_cases h : dropStat s = true <;>
      simp [statEvents, h, emissionsOf_cons_drop, emissionsOf_cons_log, ih]

theorem undeliveredLogsOf_statEvents (dropStat : Stat → Bool) (l : List Stat) :
    undeliveredLogsOf (statEvents dropStat l) = l.filter fun s => !(dropStat s) := by
  induction l with
  | nil => rfl
  | cons s rest ih =>
    by_cases h : dropStat s = true <;>
      simp [statEvents, h, undeliveredLogsOf_cons_drop, undeliveredLogsOf_cons_log,
        ih, List.filter_cons]

theorem recycleCount_statEvents (dropStat : Stat → Bool) (l : List Stat) :
    recycleCount (statEvents dropStat l) = 0 := by
  induction l with
  | nil => rfl
  | cons s rest ih =>
    by_cases h : dropStat s = true <;>
      simp [statEvents, h, recycleCount_cons_drop, recycleCount_cons_log, ih]

theorem resolveSeq_length (interp : String → Captures → String) (mets : List metric)
    (c : Captures) (st : Stat) :
    (resolveSeq interp mets c st).length = mets.length := by
  induction mets generalizing st with
  | nil => rfl
  | cons met rest ih => simp [resolveSeq, ih]

theorem runLoop_recycleCount (interp : String → Captures → String)
    (dropStat : Stat → Bool) (mets : List metric) (items : List PipelineCapture)
    (st : Stat) :
    recycleCount (runLoop interp dropStat mets items st) = items.length := by
  induction items generalizing st with
  | nil => rfl
  | cons plc rest ih =>
    simp only [runLoop, processPack, recycleCount_append, ih, dispatchMetrics_eq,
      recycleCount_statEvents, List.length_cons, recycleCount_singleton_recycle]
    omega

/-! ### Run-level emission sequence -/

theorem resolveSeq_eq_resolveJobs (interp : String → Captures → String)
    (mets : List metric) (c : Captures) (st : Stat) :
    resolveSeq interp mets c st
      = resolveJobs interp (mets.map fun met => (met, c)) st := by
  induction mets generalizing st with
  | nil => rfl
  | cons met rest ih => simp only [resolveSeq, List.map, resolveJobs, ih]

theorem resolveJobs_append (interp : String → Captures → String)
    (a b : List (metric × Captures)) (st : Stat) :
    resolveJobs interp (a ++ b) st
      = resolveJobs interp a st
          ++ resolveJobs interp b (lastStatD (resolveJobs interp a st) st) := by
  induction a generalizing st with
  | nil => rfl
  | cons j rest ih =>
    simp only [List.cons_append, resolveJobs, ih, lastStatD, List.append_eq]

theorem runLoop_emissions (interp : String → Captures → String)
    (dropStat : Stat → Bool) (mets : List metric) (items : List PipelineCapture)
    (st : Stat) :
    emissionsOf (runLoop interp dropStat mets items st)
      = resolveJobs interp (jobsOf mets items) st := by
  induction items generalizing st with
  | nil => rfl
  | cons plc rest ih =>
    have hseq := resolveSeq_eq_resolveJobs interp mets
      (assembleCaptures plc.Captures plc.Pack.Message) st
    simp only [runLoop, processPack, dispatchMetrics_eq, jobsOf,
      resolveJobs_append, emissionsOf_append, emissionsOf_statEvents, ih,
      emissionsOf_cons_recycle]
    rw [hseq]
    have hnil : emissionsOf ([] : List Event) = [] := rfl
    simp [hnil]

/-! ### Modifier bookkeeping -/

theorem resolveJobs_modifiers (interp : String → Captures → String)
    (jobs : List (metric × Captures)) (st : Stat) :
    (resolveJobs interp jobs st).map Stat.Modifier
      = modifierTrace st.Modifier (jobs.map fun j => j.1.Type_) := by
  induction jobs generalizing st with
  | nil => rfl
  | cons j rest ih =>
    simp only [resolveJobs, List.map, modifierTrace, ih, resolveStat]

theorem modifierTrace_length (m : String) (ks : List String) :
    (modifierTrace m ks).length = ks.length := by
  induction ks generalizing m with
  | nil => rfl
  | cons k rest ih => simp [modifierTrace, ih]

theorem modifierTrace_getD (ks : List String) (m : String) (i : Nat)
    (h : i < ks.length) :
    (modifierTrace m ks).getD i "" = (ks.take (i + 1)).foldl updateModifier m := by
  induction ks generalizing m i with
  | nil => simp at h
  | cons k rest ih =>
    cases i with
    | zero => rfl
    | succ i =>
      have h2 : i < rest.length := by simpa using h
      simp only [modifierTrace, List.getD_cons_succ, List.take_succ_cons,
        List.foldl_cons]
      exact ih (updateModifier m k) i h2

theorem updateModifier_recognized (m k : String) :
    updateModifier m k = if kindRecognized k then kindModifier k else m := by
  unfold updateModifier
  split
  · simp [kindRecognized, kindModifier]
  · simp [kindRecognized, kindModifier]
  · simp [kindRecognized, kindModifier]
  · next h1 h2 h3 =>
    have hc : kindRecognized k = false := by
      simp only [kindRecognized, Bool.or_eq_false_iff, beq_eq_false_iff_ne, ne_eq]
      exact ⟨⟨h1, h2⟩, h3⟩
    rw [hc]
    simp

theorem kindRecognized_cases (k : String) (h : kindRecognized k = true) :
    k = "Counter" ∨ k = "Timer" ∨ k = "Gauge" := by
  simp only [kindRecognized, Bool.or_eq_true, beq_iff_eq] at h
  tauto

theorem lastRecognized_mem (ks : List String) (k : String)
    (h : lastRecognized ks = some k) : kindRecognized k = true := by
  induction ks with
  | nil => simp [lastRecognized] at h
  | cons k2 rest ih =>
    simp only [lastRecognized] at h
    cases hlr : lastRecognized rest with
    | some k3 =>
      rw [hlr] at h
      have h2 : k3 = k := by
        simpa using h
      exact ih (h2 ▸ hlr)
    | none =>
      rw [hlr, Option.none_or] at h
      by_cases hk2 : kindRecognized k2 = true
      · rw [if_pos hk2] at h
        cases h
        exact hk2
      · rw [if_neg hk2] at h
        cases h

theorem foldl_updateModifier_eq (ks : List String) (m : String) :
    ks.foldl updateModifier m
      = (match lastRecognized ks with
          | some k => kindModifier k
          | none => m) := by
  induction ks generalizing m with
  | nil => rfl
  | cons k rest ih =>
    simp only [List.foldl_cons, lastRecognized, ih (updateModifier m k)]
    cases hlr : lastRecognized rest with
    | some k2 => rfl
    | none =>
      simp only [Option.none_or]
      by_cases hk : kindRecognized k = true
      · rw [if_pos hk, updateModifier_recognized, if_pos hk]
      · rw [if_neg hk, updateModifier_recognized, if_neg hk]

theorem modifier_getD (l : List Stat) (i : Nat) :
    (l.getD i zeroStat).Modifier = (l.map Stat.Modifier).getD i "" := by
  induction l generalizing i with
  | nil => rfl
  | cons s rest ih =>
    cases i with
    | zero => rfl
    | succ i => simpa using ih i

theorem modifierTrace_unrecognized_succ (ks : List String) (m : String) (i : Nat)
    (h : i + 1 < ks.length)
    (hk : kindRecognized (ks.getD (i + 1) "") = false) :
    (modifierTrace m ks).getD (i + 1) "" = (modifierTrace m ks).getD i "" := by
  rw [modifierTrace_getD ks m (i + 1) h, modifierTrace_getD ks m i (by omega)]
  have h9 : ks[i + 1]? = some ks[i + 1] := List.getElem?_eq_getElem h
  have hkd : ks.getD (i + 1) "" = ks[i + 1] := by
    rw [List.getD_eq_getElem?_getD, h9]
    rfl
  rw [List.take_succ, h9, Option.toList_some, List.foldl_append, List.foldl_cons,
    List.foldl_nil, updateModifier_recognized]
  rw [hkd] at hk
  rw [hk]
  simp

theorem modifierTrace_unrecognized_empty (ks : List String) (i : Nat)
    (h : i < ks.length) (hk : kindRecognized (ks.getD i "") = false) :
    ((modifierTrace "" ks).getD i "" = "" ↔
      (lastRecognized (ks.take i) ≠ some "Timer"
        ∧ lastRecognized (ks.take i) ≠ some "Gauge")) := by
  rw [modifierTrace_getD ks "" i h]
  have h9 : ks[i]? = some ks[i] := List.getElem?_eq_getElem h
  have hkd : ks.getD i "" = ks[i] := by
    rw [List.getD_eq_getElem?_getD, h9]
    rfl
  rw [List.take_succ, h9, Option.toList_some, List.foldl_append, List.foldl_cons,
    List.foldl_nil, updateModifier_recognized]
  rw [hkd] at hk
  rw [hk]
  simp only [Bool.false_eq_true, if_false]
  rw [foldl_updateModifier_eq]
  cases hlr : lastRecognized (ks.take i) with
  | none => simp
  | some k2 =>
    have hrec := lastRecognized_mem _ _ hlr
    rcases kindRecognized_cases k2 hrec with h1 | h1 | h1 <;> subst h1 <;> decide

theorem dispatch_emissions (interp : String → Captures → String)
    (dropStat : Stat → Bool) (mets : List metric) (c : Captures) (st : Stat) :
    emissionsOf (dispatchMetrics interp dropStat mets c st).1
      = resolveSeq interp mets c st := by
  rw [dispatchMetrics_eq, emissionsOf_statEvents]

theorem resolveSeq_eq_outcomes_map (interp : String → Captures → String)
    (dropStat : Stat → Bool) (mets : List metric) (c : Captures) (st : Stat) :
    resolveSeq interp mets c st
      = (templateOutcomes interp dropStat mets c st).map fun t => t.2.1 := by
  induction mets generalizing st with
  | nil => rfl
  | cons met rest ih => simp only [resolveSeq, templateOutcomes, List.map, ih]

theorem templateOutcomes_recognized (interp : String → Captures → String)
    (dropStat : Stat → Bool) (mets : List metric) (c : Captures) (st : Stat)
    (h : ∀ met ∈ mets, kindRecognized met.Type_ = true) :
    templateOutcomes interp dropStat mets c st
      = mets.map fun met =>
          (met, resolveStat interp met c zeroStat,
            dropStat (resolveStat interp met c zeroStat)) := by
  induction mets generalizing st with
  | nil => rfl
  | cons met rest ih =>
    have h1 : kindRecognized met.Type_ = true := h met (by simp)
    have hstat : resolveStat interp met c st = resolveStat interp met c zeroStat := by
      unfold resolveStat
      rw [updateModifier_recognized, updateModifier_recognized, h1]
      simp
    have hrest : ∀ met2 ∈ rest, kindRecognized met2.Type_ = true :=
      fun met2 hmem => h met2 (by simp [hmem])
    simp only [templateOutcomes, List.map, hstat, ih _ hrest]

/-! ### Claim theorems -/

/-- Claim C1: for every message, the capture mapping is assembled with the
precedence upstream captures < metadata keys (`Logger`, `Hostname`, `Type`,
`Payload`) < string-typed fields (first string value under the field name):
the lookup of any key returns the field contribution if one exists, otherwise
the metadata value if the key is one of the four, otherwise the upstream
capture. -/
theorem capture_precedence (upstream : Option Captures) (m : Message) (k : String) :
    assembleCaptures upstream m k =
      Option.or (lastStringField m.Fields k)
        (Option.or (metadataLookup m k) (upstreamCaptures upstream k)) :=
  assembleCaptures_lookup upstream m k

/-- Claim C2: for a template with a recognized kind the emission modifier is
exactly `""` for Counter, `"ms"` for Timer and `"g"` for Gauge, regardless of
the capture mapping and of the previous contents of the reused `stat`
variable. -/
theorem recognized_kind_modifier (interp : String → Captures → String)
    (met : metric) (captures : Captures) (stat : Stat) :
    (met.Type_ = "Counter" → (resolveStat interp met captures stat).Modifier = "")
    ∧ (met.Type_ = "Timer" → (resolveStat interp met captures stat).Modifier = "ms")
    ∧ (met.Type_ = "Gauge" → (resolveStat interp met captures stat).Modifier = "g") := by
  refine ⟨fun h => ?_, fun h => ?_, fun h => ?_⟩ <;>
    simp [resolveStat, updateModifier, h]

/-- Witness for C2 at concrete templates. -/
theorem recognized_kind_modifier_check :
    (resolveStat (fun t _ => t) ⟨"Timer", "n", "v"⟩ emptyCaptures zeroStat).Modifier = "ms"
    ∧ (resolveStat (fun t _ => t) ⟨"Counter", "n", "v"⟩ emptyCaptures zeroStat).Modifier = ""
    ∧ (resolveStat (fun t _ => t) ⟨"Gauge", "n", "v"⟩ emptyCaptures zeroStat).Modifier = "g" :=
  ⟨(recognized_kind_modifier (fun t _ => t) ⟨"Timer", "n", "v"⟩ emptyCaptures zeroStat).2.1 rfl,
   (recognized_kind_modifier (fun t _ => t) ⟨"Counter", "n", "v"⟩ emptyCaptures zeroStat).1 rfl,
   (recognized_kind_modifier (fun t _ => t) ⟨"Gauge", "n", "v"⟩ emptyCaptures zeroStat).2.2 rfl⟩

/-- Claim C10: a field that is not string-typed, or has no string values,
contributes nothing to the capture mapping; the first-value access only
happens when the value list is provably non-empty. -/
theorem field_contribution_guarded (c : Captures) (f : Field) :
    (¬ (f.ValueType = FieldValueType.STRING ∧ 0 < f.ValueString.length) →
      loadField c f = c)
    ∧ (loadField c f = c
        ∨ ∃ v rest, f.ValueString = v :: rest
            ∧ f.ValueType = FieldValueType.STRING
            ∧ loadField c f = capInsert c f.Name v) := by
  constructor
  · intro h
    unfold loadField
    rw [if_neg h]
  · by_cases h : f.ValueType = FieldValueType.STRING ∧ 0 < f.ValueString.length
    · right
      cases hvs : f.ValueString with
      | nil => rw [hvs] at h; simp at h
      | cons v rest =>
        refine ⟨v, rest, rfl, h.1, ?_⟩
        unfold loadField
        rw [if_pos h, hvs]
        rfl
    · left
      unfold loadField
      rw [if_neg h]

/-- Witness for C10: an integer-typed field and an empty string-typed field
both leave the captures untouched. -/
theorem field_contribution_guarded_check :
    loadField emptyCaptures ⟨"elapsed", FieldValueType.INTEGER, []⟩ = emptyCaptures
    ∧ loadField emptyCaptures ⟨"tags", FieldValueType.STRING, []⟩ = emptyCaptures :=
  ⟨(field_contribution_guarded emptyCaptures ⟨"elapsed", FieldValueType.INTEGER, []⟩).1
      (by decide),
   (field_contribution_guarded emptyCaptures ⟨"tags", FieldValueType.STRING, []⟩).1
      (by decide)⟩

/-- Counterexample to C7 as stated: a message carrying a string-typed field
named `Logger` makes the capture under key `Logger` differ from the message's
`Logger` accessor, even with no upstream captures. -/
theorem metadata_overridden_by_field_cex :
    assembleCaptures none
        ⟨"y", "h", "ty", "p", [⟨"Logger", FieldValueType.STRING, ["x"]⟩]⟩ "Logger"
      = some "x"
    ∧ (⟨"y", "h", "ty", "p", [⟨"Logger", FieldValueType.STRING, ["x"]⟩]⟩ : Message).Logger
      = "y"
    ∧ some "x" ≠ some "y" := by
  refine ⟨rfl, rfl, by decide⟩

/-- Claim C7 (amended): with no upstream captures the capture mapping always
contains the keys `Logger`, `Hostname`, `Type`, `Payload`; the value under
each equals the corresponding accessor provided no string-typed field with a
value collides with that key (a colliding field overrides, per C1). -/
theorem metadata_keys_present (m : Message) :
    (assembleCaptures none m "Logger").isSome = true
    ∧ (assembleCaptures none m "Hostname").isSome = true
    ∧ (assembleCaptures none m "Type").isSome = true
    ∧ (assembleCaptures none m "Payload").isSome = true
    ∧ (lastStringField m.Fields "Logger" = none →
        assembleCaptures none m "Logger" = some m.Logger)
    ∧ (lastStringField m.Fields "Hostname" = none →
        assembleCaptures none m "Hostname" = some m.Hostname)
    ∧ (lastStringField m.Fields "Type" = none →
        assembleCaptures none m "Type" = some m.Type_)
    ∧ (lastStringField m.Fields "Payload" = none →
        assembleCaptures none m "Payload" = some m.Payload) := by
  have hL := assembleCaptures_lookup none m "Logger"
  have hH := assembleCaptures_lookup none m "Hostname"
  have hT := assembleCaptures_lookup none m "Type"
  have hP := assembleCaptures_lookup none m "Payload"
  have hmL : metadataLookup m "Logger" = some m.Logger := rfl
  have hmH : metadataLookup m "Hostname" = some m.Hostname := rfl
  have hmT : metadataLookup m "Type" = some m.Type_ := rfl
  have hmP : metadataLookup m "Payload" = some m.Payload := rfl
  refine ⟨?_, ?_, ?_, ?_, fun h => ?_, fun h => ?_, fun h => ?_, fun h => ?_⟩
  · rw [hL, hmL]
    cases lastStringField m.Fields "Logger" <;> rfl
  · rw [hH, hmH]
    cases lastStringField m.Fields "Hostname" <;> rfl
  · rw [hT, hmT]
    cases lastStringField m.Fields "Type" <;> rfl
  · rw [hP, hmP]
    cases lastStringField m.Fields "Payload" <;> rfl
  · rw [hL, h, hmL, Option.none_or]
    rfl
  · rw [hH, h, hmH, Option.none_or]
    rfl
  · rw [hT, h, hmT, Option.none_or]
    rfl
  · rw [hP, h, hmP, Option.none_or]
    rfl

/-- Witness for C7 (amended) at a field-free message. -/
theorem metadata_keys_present_check :
    assembleCaptures none ⟨"l", "h", "ty", "p", []⟩ "Logger" = some "l"
    ∧ assembleCaptures none ⟨"l", "h", "ty", "p", []⟩ "Payload" = some "p" :=
  ⟨(metadata_keys_present ⟨"l", "h", "ty", "p", []⟩).2.2.2.2.1 rfl,
   (metadata_keys_present ⟨"l", "h", "ty", "p", []⟩).2.2.2.2.2.2.2 rfl⟩

/-- Counterexample to C3 as stated: in a run whose template sequence is a
Timer template followed by a template of unrecognized kind `"Foo"`, the second
emission's modifier is `"ms"`, not the empty string. -/
theorem unrecognized_kind_empty_modifier_cex :
    kindRecognized "Foo" = false
    ∧ ((emissionsOf (runLoop (fun t _ => t) (fun _ => true)
          [⟨"Timer", "n1", "v1"⟩, ⟨"Foo", "n2", "v2"⟩]
          [⟨⟨⟨"l", "h", "ty", "p", []⟩⟩, none⟩] zeroStat)).getD 1 zeroStat).Modifier
        = "ms"
    ∧ ("ms" : String) ≠ "" := by
  refine ⟨rfl, rfl, by decide⟩

/-- Claim C3 (amended): a template of unrecognized kind leaves the reused
`stat` variable's modifier unchanged — its emission's modifier equals the
previous resolution's modifier, and is empty at the start of a run only
because the zero-valued `stat` starts with an empty modifier. -/
theorem unrecognized_kind_keeps_previous_modifier
    (interp : String → Captures → String) (met : metric) (captures : Captures)
    (stat : Stat) (h : kindRecognized met.Type_ = false) :
    (resolveStat interp met captures stat).Modifier = stat.Modifier
    ∧ zeroStat.Modifier = "" := by
  constructor
  · show updateModifier stat.Modifier met.Type_ = stat.Modifier
    rw [updateModifier_recognized, h]
    simp
  · rfl

/-- Witness for C3 (amended) at an unrecognized kind and a previous timer
modifier. -/
theorem unrecognized_kind_keeps_previous_modifier_check :
    (resolveStat (fun t _ => t) ⟨"Foo", "n", "v"⟩ emptyCaptures
        ⟨"b", "w", "ms"⟩).Modifier = "ms" :=
  (unrecognized_kind_keeps_previous_modifier (fun t _ => t) ⟨"Foo", "n", "v"⟩
      emptyCaptures ⟨"b", "w", "ms"⟩ rfl).1

/-- Claim C4: for every message, every configured template is resolved and
submitted to the accumulator exactly once (one submission per template, in
iteration order, whatever the accumulator answers); each rejected emission
produces exactly one "undelivered stat" log record; and processing always
reaches the end of the message (the pack recycle still happens). -/
theorem templates_dispatched_once_per_message (interp : String → Captures → String)
    (dropStat : Stat → Bool) (mets : List metric) (plc : PipelineCapture)
    (stat : Stat) :
    emissionsOf (processPack interp dropStat mets plc stat).1
        = resolveSeq interp mets (assembleCaptures plc.Captures plc.Pack.Message) stat
    ∧ (emissionsOf (processPack interp dropStat mets plc stat).1).length = mets.length
    ∧ undeliveredLogsOf (processPack interp dropStat mets plc stat).1
        = (emissionsOf (processPack interp dropStat mets plc stat).1).filter
            (fun st => !(dropStat st))
    ∧ recycleCount (processPack interp dropStat mets plc stat).1 = 1 := by
  have hev : (processPack interp dropStat mets plc stat).1
      = statEvents dropStat
          (resolveSeq interp mets (assembleCaptures plc.Captures plc.Pack.Message) stat)
        ++ [Event.recycle] := by
    simp only [processPack, dispatchMetrics_eq]
  have hnil : emissionsOf [Event.recycle] = [] := rfl
  have hnil2 : undeliveredLogsOf [Event.recycle] = [] := rfl
  refine ⟨?_, ?_, ?_, ?_⟩
  · rw [hev, emissionsOf_append, emissionsOf_statEvents, hnil, List.append_nil]
  · rw [hev, emissionsOf_append, emissionsOf_statEvents, hnil, List.append_nil,
      resolveSeq_length]
  · rw [hev, emissionsOf_append, undeliveredLogsOf_append, emissionsOf_statEvents,
      undeliveredLogsOf_statEvents, hnil, hnil2, List.append_nil, List.append_nil]
  · rw [hev, recycleCount_append, recycleCount_statEvents,
      recycleCount_singleton_recycle]

/-- Claim C5: the events of one message are the dispatch events followed by a
single recycle: each processed message is recycled exactly once, after all of
its templates have been resolved and submitted; over a whole run the number of
recycles equals the number of work items. -/
theorem pack_recycled_once_after_dispatch (interp : String → Captures → String)
    (dropStat : Stat → Bool) (mets : List metric) (plc : PipelineCapture)
    (stat : Stat) (items : List PipelineCapture) (st0 : Stat) :
    (∃ pre, (processPack interp dropStat mets plc stat).1 = pre ++ [Event.recycle]
        ∧ recycleCount pre = 0
        ∧ (emissionsOf pre).length = mets.length)
    ∧ recycleCount (runLoop interp dropStat mets items st0) = items.length := by
  constructor
  · refine ⟨statEvents dropStat
      (resolveSeq interp mets (assembleCaptures plc.Captures plc.Pack.Message) stat),
      ?_, ?_, ?_⟩
    · simp only [processPack, dispatchMetrics_eq]
    · exact recycleCount_statEvents _ _
    · rw [emissionsOf_statEvents, resolveSeq_length]
  · exact runLoop_recycleCount interp dropStat mets items st0

/-- Claim C6: if the configured accumulator name is absent from the registry
of pipeline inputs, or the registered input lacks the accumulator capability,
`StatFilter.Run` returns a startup error naming the offending target and never
produces any event (no submission, no recycle). -/
theorem startup_error_no_work (s : StatFilter) (reg : String → Option InputRunner)
    (interp : String → Captures → String) (items : List PipelineCapture) :
    (reg s.statAccumName = none →
      StatFilter.Run s reg interp items
          = Except.error (StartupError.noInputNamed s.statAccumName)
        ∧ ∀ evs, StatFilter.Run s reg interp items ≠ Except.ok evs)
    ∧ (∀ ir, reg s.statAccumName = some ir → ir.statAccum = none →
      StatFilter.Run s reg interp items
          = Except.error (StartupError.notAStatAccumulator s.statAccumName)
        ∧ ∀ evs, StatFilter.Run s reg interp items ≠ Except.ok evs) := by
  constructor
  · intro h
    have herr : StatFilter.Run s reg interp items
        = Except.error (StartupError.noInputNamed s.statAccumName) := by
      unfold StatFilter.Run
      rw [h]
    exact ⟨herr, fun evs hc => by rw [herr] at hc; exact Except.noConfusion hc⟩
  · intro ir h1 h2
    have herr : StatFilter.Run s reg interp items
        = Except.error (StartupError.notAStatAccumulator s.statAccumName) := by
      unfold StatFilter.Run
      rw [h1]
      simp [h2]
    exact ⟨herr, fun evs hc => by rw [herr] at hc; exact Except.noConfusion hc⟩

/-- Witness for C6: a registry with no entry at all, and one whose entry lacks
the accumulator capability. -/
theorem startup_error_no_work_check :
    StatFilter.Run ⟨[], "StatsAccumInput"⟩ (fun _ => none) (fun t _ => t) []
        = Except.error (StartupError.noInputNamed "StatsAccumInput")
    ∧ StatFilter.Run ⟨[], "StatsAccumInput"⟩ (fun _ => some ⟨none⟩) (fun t _ => t) []
        = Except.error (StartupError.notAStatAccumulator "StatsAccumInput") :=
  ⟨((startup_error_no_work ⟨[], "StatsAccumInput"⟩ (fun _ => none)
      (fun t _ => t) []).1 rfl).1,
   ((startup_error_no_work ⟨[], "StatsAccumInput"⟩ (fun _ => some ⟨none⟩)
      (fun t _ => t) []).2 ⟨none⟩ rfl rfl).1⟩

/-- Counterexample to C8 as stated: with a fixed capture mapping, swapping a
Timer template and a template of unrecognized kind changes the multiset of
emissions — the unrecognized template's emission carries modifier `"ms"` in
one order and `""` in the other, because the reused `stat` variable leaks the
previous modifier. -/
theorem dispatch_order_dependent_cex :
    ([⟨"Foo", "n2", "v2"⟩, ⟨"Timer", "n1", "v1"⟩] : List metric).Perm
        [⟨"Timer", "n1", "v1"⟩, ⟨"Foo", "n2", "v2"⟩]
    ∧ (resolveSeq (fun t _ => t) [⟨"Timer", "n1", "v1"⟩, ⟨"Foo", "n2", "v2"⟩]
        emptyCaptures zeroStat).count ⟨"n2", "v2", "ms"⟩ = 1
    ∧ (resolveSeq (fun t _ => t) [⟨"Foo", "n2", "v2"⟩, ⟨"Timer", "n1", "v1"⟩]
        emptyCaptures zeroStat).count ⟨"n2", "v2", "ms"⟩ = 0 := by
  refine ⟨?_, ?_, ?_⟩ <;> decide

/-- Claim C8 (amended): when every template in the set has a recognized kind,
resolving and dispatching the templates in any two iteration orders (and from
any two prior states of the reused `stat` variable) yields the same multiset
of (template, emission, verdict) triples, and in particular the same multiset
of submitted emissions. -/
theorem dispatch_order_insignificant_for_recognized
    (interp : String → Captures → String) (dropStat : Stat → Bool) (c : Captures)
    (mets1 mets2 : List metric) (st1 st2 : Stat)
    (hp : mets1.Perm mets2)
    (hr : ∀ met ∈ mets1, kindRecognized met.Type_ = true) :
    (templateOutcomes interp dropStat mets1 c st1).Perm
        (templateOutcomes interp dropStat mets2 c st2)
    ∧ (emissionsOf (dispatchMetrics interp dropStat mets1 c st1).1).Perm
        (emissionsOf (dispatchMetrics interp dropStat mets2 c st2).1) := by
  have hr2 : ∀ met ∈ mets2, kindRecognized met.Type_ = true :=
    fun met hm => hr met (hp.mem_iff.mpr hm)
  have hout : (templateOutcomes interp dropStat mets1 c st1).Perm
      (templateOutcomes interp dropStat mets2 c st2) := by
    rw [templateOutcomes_recognized interp dropStat mets1 c st1 hr,
      templateOutcomes_recognized interp dropStat mets2 c st2 hr2]
    exact hp.map _
  refine ⟨hout, ?_⟩
  rw [dispatch_emissions, dispatch_emissions,
    resolveSeq_eq_outcomes_map interp dropStat mets1 c st1,
    resolveSeq_eq_outcomes_map interp dropStat mets2 c st2]
  exact hout.map _

/-- Witness for C8 (amended): two orders of a Timer and a Counter template,
from different prior states. -/
theorem dispatch_order_insignificant_for_recognized_check :
    (templateOutcomes (fun t _ => t) (fun _ => true)
        [⟨"Timer", "n1", "v1"⟩, ⟨"Counter", "n2", "v2"⟩] emptyCaptures zeroStat).Perm
      (templateOutcomes (fun t _ => t) (fun _ => true)
        [⟨"Counter", "n2", "v2"⟩, ⟨"Timer", "n1", "v1"⟩] emptyCaptures
        ⟨"a", "b", "g"⟩) :=
  (dispatch_order_insignificant_for_recognized (fun t _ => t) (fun _ => true)
    emptyCaptures [⟨"Timer", "n1", "v1"⟩, ⟨"Counter", "n2", "v2"⟩]
    [⟨"Counter", "n2", "v2"⟩, ⟨"Timer", "n1", "v1"⟩] zeroStat ⟨"a", "b", "g"⟩
    (by decide) (by decide)).1

/-- Claim C9: in a successful run, the sequence of emission modifiers is the
trace obtained by folding the switch over the flattened kind sequence starting
from the zero-valued `stat`; a template of unrecognized kind therefore emits
the modifier of the template resolved immediately before it (across message
boundaries), and its modifier is empty exactly when the most recent recognized
kind among the previously resolved templates of the run is not Timer and not
Gauge. -/
theorem run_modifier_leak (s : StatFilter) (reg : String → Option InputRunner)
    (interp : String → Captures → String) (items : List PipelineCapture)
    (evs : List Event)
    (hrun : StatFilter.Run s reg interp items = Except.ok evs) :
    (emissionsOf evs).map Stat.Modifier = modifierTrace "" (runKinds s items)
    ∧ (∀ i, i + 1 < (runKinds s items).length →
        kindRecognized ((runKinds s items).getD (i + 1) "") = false →
        ((emissionsOf evs).getD (i + 1) zeroStat).Modifier
          = ((emissionsOf evs).getD i zeroStat).Modifier)
    ∧ (∀ i, i < (runKinds s items).length →
        kindRecognized ((runKinds s items).getD i "") = false →
        (((emissionsOf evs).getD i zeroStat).Modifier = "" ↔
          (lastRecognized ((runKinds s items).take i) ≠ some "Timer"
            ∧ lastRecognized ((runKinds s items).take i) ≠ some "Gauge"))) := by
  unfold StatFilter.Run at hrun
  cases hreg : reg s.statAccumName with
  | none =>
    rw [hreg] at hrun
    exact Except.noConfusion hrun
  | some ir =>
    rw [hreg] at hrun
    cases hacc : ir.statAccum with
    | none =>
      simp only [hacc] at hrun
      exact Except.noConfusion hrun
    | some dropStat =>
      simp only [hacc, Except.ok.injEq] at hrun
      subst hrun
      have hm : (emissionsOf (runLoop interp dropStat s.metrics items zeroStat)).map
          Stat.Modifier = modifierTrace "" (runKinds s items) := by
        rw [runLoop_emissions, resolveJobs_modifiers]
        rfl
      refine ⟨hm, fun i hi hk => ?_, fun i hi hk => ?_⟩
      · rw [modifier_getD, modifier_getD, hm]
        exact modifierTrace_unrecognized_succ (runKinds s items) "" i hi hk
      · rw [modifier_getD, hm]
        exact modifierTrace_unrecognized_empty (runKinds s items) i hi hk

/-- Witness for C9: a run over one message and the template sequence
Timer-then-`"Foo"`; the second (unrecognized) emission repeats the first
emission's `"ms"` modifier. -/
theorem run_modifier_leak_check :
    ((emissionsOf (runLoop (fun t _ => t) (fun _ => true)
        [⟨"Timer", "n1", "v1"⟩, ⟨"Foo", "n2", "v2"⟩]
        [⟨⟨⟨"l", "h", "ty", "p", []⟩⟩, none⟩] zeroStat)).getD 1 zeroStat).Modifier
      = ((emissionsOf (runLoop (fun t _ => t) (fun _ => true)
        [⟨"Timer", "n1", "v1"⟩, ⟨"Foo", "n2", "v2"⟩]
        [⟨⟨⟨"l", "h", "ty", "p", []⟩⟩, none⟩] zeroStat)).getD 0 zeroStat).Modifier :=
  (run_modifier_leak ⟨[⟨"Timer", "n1", "v1"⟩, ⟨"Foo", "n2", "v2"⟩], "A"⟩
    (fun _ => some ⟨some (fun _ => true)⟩) (fun t _ => t)
    [⟨⟨⟨"l", "h", "ty", "p", []⟩⟩, none⟩]
    (runLoop (fun t _ => t) (fun _ => true)
      [⟨"Timer", "n1", "v1"⟩, ⟨"Foo", "n2", "v2"⟩]
      [⟨⟨⟨"l", "h", "ty", "p", []⟩⟩, none⟩] zeroStat)
    rfl).2.1 0 (by decide) (by decide)

end Heka
